import Mathlib

/-
  Verification development for the TableUV mapping core
  (src/Firmware/ESP32/Arduino_platform/src/APP/app_slam.c).

  The C module maintains a fixed-size toroidal occupancy grid ("dynamic map"),
  re-centers it as the robot moves, accumulates sub-pixel drift, and marks the
  robot footprint as visited.  The definitions below are a shallow embedding of
  that module: `int32_t` arithmetic is modelled by `ℤ` (no value here ever
  approaches 2^31), the `float` drift arithmetic by `ℚ` with explicit
  truncation toward zero (the C cast `(int32_t)` of a float truncates toward
  zero), and the flat `int8_t data[101*101]` buffer by a total function
  `ℤ → ℤ` indexed by the same linear indices the C pointer arithmetic uses.
-/

namespace AppSlam

/-- `#define ROBOT_SIZE_D_MM (100U)` -/
def ROBOT_SIZE_D_MM : ℕ := 100

/-- `#define GMAP_SQUARE_EDGE_SIZE_MM (1000U)` -/
def GMAP_SQUARE_EDGE_SIZE_MM : ℕ := 1000

/-- `#define GMAP_UNIT_GRID_STEP_SIZE_MM (10U)` -/
def GMAP_UNIT_GRID_STEP_SIZE_MM : ℕ := 10

/-- `#define GRID_CELL_NEUTRAL (0x0)` -/
def GRID_CELL_NEUTRAL : ℤ := 0

/-- `#define GRID_CELL_VISITED (-10)` -/
def GRID_CELL_VISITED : ℤ := -10

/-- `#define GRID_CELL_WALKABLE_THRESHOLD_MAX (20)` -/
def GRID_CELL_WALKABLE_THRESHOLD_MAX : ℤ := 20

/-- `#define GRID_CELL_WALKABLE_THRESHOLD_MIN (-20)` -/
def GRID_CELL_WALKABLE_THRESHOLD_MIN : ℤ := -20

/-- `#define ROBOT_SIZE_D_PIXEL ((ROBOT_SIZE_D_MM)/(GMAP_UNIT_GRID_STEP_SIZE_MM))` -/
def ROBOT_SIZE_D_PIXEL : ℕ := ROBOT_SIZE_D_MM / GMAP_UNIT_GRID_STEP_SIZE_MM

/-- `#define ROBOT_SIZE_R_PIXEL ((ROBOT_SIZE_D_PIXEL)/(2U))` -/
def ROBOT_SIZE_R_PIXEL : ℕ := ROBOT_SIZE_D_PIXEL / 2

/-- `#define GMAP_GRID_EDGE_SIZE_PIXEL ((GMAP_SQUARE_EDGE_SIZE_MM)/(GMAP_UNIT_GRID_STEP_SIZE_MM))`
    — this is the spec's `E`. -/
def GMAP_GRID_EDGE_SIZE_PIXEL : ℕ := GMAP_SQUARE_EDGE_SIZE_MM / GMAP_UNIT_GRID_STEP_SIZE_MM

/-- `#define GMAP_WN_PIXEL ((GMAP_GRID_EDGE_SIZE_PIXEL) + (1U))` -/
def GMAP_WN_PIXEL : ℕ := GMAP_GRID_EDGE_SIZE_PIXEL + 1

/-- `#define GMAP_HN_PIXEL ((GMAP_GRID_EDGE_SIZE_PIXEL) + (1U))` -/
def GMAP_HN_PIXEL : ℕ := GMAP_GRID_EDGE_SIZE_PIXEL + 1

/-- `#define GMAP_DEFAULT_CENTRAL_X_INDEX_PIXEL ((GMAP_GRID_EDGE_SIZE_PIXEL) / (2U))` -/
def GMAP_DEFAULT_CENTRAL_X_INDEX_PIXEL : ℕ := GMAP_GRID_EDGE_SIZE_PIXEL / 2

/-- `#define GMAP_DEFAULT_CENTRAL_Y_INDEX_PIXEL ((GMAP_GRID_EDGE_SIZE_PIXEL) / (2U))` -/
def GMAP_DEFAULT_CENTRAL_Y_INDEX_PIXEL : ℕ := GMAP_GRID_EDGE_SIZE_PIXEL / 2

lemma ROBOT_SIZE_D_PIXEL_eq : ROBOT_SIZE_D_PIXEL = 10 := rfl

lemma ROBOT_SIZE_R_PIXEL_eq : ROBOT_SIZE_R_PIXEL = 5 := rfl

lemma GMAP_GRID_EDGE_SIZE_PIXEL_eq : GMAP_GRID_EDGE_SIZE_PIXEL = 100 := rfl

lemma GMAP_WN_PIXEL_eq : GMAP_WN_PIXEL = 101 := rfl

lemma GMAP_HN_PIXEL_eq : GMAP_HN_PIXEL = 101 := rfl

lemma GMAP_DEFAULT_CENTRAL_X_INDEX_PIXEL_eq : GMAP_DEFAULT_CENTRAL_X_INDEX_PIXEL = 50 := rfl

lemma GMAP_DEFAULT_CENTRAL_Y_INDEX_PIXEL_eq : GMAP_DEFAULT_CENTRAL_Y_INDEX_PIXEL = 50 := rfl

/-- `#define ARG_RANGE_INCLUSIVE(x_val, min, max)
      (uint8_t)(((int32_t)(x_val) >= (int32_t)(min)) + ((int32_t)(x_val) >= (int32_t)(max)))`
    — `0: (-inf, min), 1: [min, max), 2: [max, inf)` as a table index. -/
def ARG_RANGE_INCLUSIVE (x_val mn mx : ℤ) : ℕ :=
  (if mn ≤ x_val then 1 else 0) + (if mx ≤ x_val then 1 else 0)

/-- `static const int32_t MAP_OFFSET[3] = {GMAP_WN_PIXEL, 0, -GMAP_WN_PIXEL};` -/
def MAP_OFFSET : List ℤ := [(GMAP_WN_PIXEL : ℤ), 0, -(GMAP_WN_PIXEL : ℤ)]

/-- The wraparound idiom the C code applies to every coordinate before using it
    as a storage index: `c + MAP_OFFSET[ARG_RANGE_INCLUSIVE(c, 0, GMAP_WN_PIXEL)]`
    (the row variant uses `GMAP_HN_PIXEL`, which equals `GMAP_WN_PIXEL`). -/
def wrapIdx (c : ℤ) : ℤ :=
  c + MAP_OFFSET.getD (ARG_RANGE_INCLUSIVE c 0 (GMAP_WN_PIXEL : ℤ)) 0

/-- Closed form of `wrapIdx` used by the arithmetic proofs. -/
lemma wrapIdx_eq (c : ℤ) :
    wrapIdx c = if c < 0 then c + 101 else if 100 < c then c - 101 else c := by
  have hcast : ((GMAP_WN_PIXEL : ℕ) : ℤ) = 101 := by rw [GMAP_WN_PIXEL_eq]; rfl
  unfold wrapIdx ARG_RANGE_INCLUSIVE MAP_OFFSET
  rw [hcast]
  rcases lt_or_le c 0 with h0 | h0
  · have h1 : ¬ (0 : ℤ) ≤ c := not_le.mpr h0
    have h2 : ¬ (101 : ℤ) ≤ c := by omega
    simp [h0, h1, h2]
  · rcases lt_or_le (100 : ℤ) c with h1 | h1
    · have h2 : (101 : ℤ) ≤ c := by omega
      have h3 : ¬ c < 0 := not_lt.mpr h0
      simp [h0, h1, h2, h3]
      omega
    · have h2 : ¬ (101 : ℤ) ≤ c := by omega
      have h3 : ¬ c < 0 := not_lt.mpr h0
      have h4 : ¬ (100 : ℤ) < c := not_lt.mpr h1
      simp [h0, h2, h3, h4]

/-- In-range coordinates are fixed by the wrap. -/
lemma wrapIdx_id {c : ℤ} (h0 : 0 ≤ c) (h1 : c ≤ 100) : wrapIdx c = c := by
  rw [wrapIdx_eq]; split_ifs <;> omega

/-- The wrap lands in `[0, 100]` whenever its input is at most one grid
    width out of range. -/
lemma wrapIdx_range (c : ℤ) (h0 : -101 ≤ c) (h1 : c ≤ 201) :
    0 ≤ wrapIdx c ∧ wrapIdx c ≤ 100 := by
  rw [wrapIdx_eq]; split_ifs <;> omega

/-- The wrap preserves the residue modulo `101`. -/
lemma wrapIdx_emod (c : ℤ) : wrapIdx c % 101 = c % 101 := by
  rw [wrapIdx_eq]; split_ifs <;> omega

/-- Equal wraps of nearby coordinates force equal coordinates (the offsets the
    footprint and band loops feed into `wrapIdx` are at most `100` apart). -/
lemma wrapIdx_inj (a b : ℤ) (hab : a - b ≤ 100) (hba : b - a ≤ 100)
    (h : wrapIdx a = wrapIdx b) : a = b := by
  have ha := wrapIdx_emod a
  have hb := wrapIdx_emod b
  rw [h] at ha
  omega

/-- The `dynamic_map_S` struct: the flat `int8_t data[GMAP_WN_PIXEL * GMAP_HN_PIXEL]`
    buffer (modelled as a total function on the linear indices the C pointer
    arithmetic produces), the storage center `map_center_pixel`, and the
    per-axis sub-pixel leftover `map_offset_mm` (C `float`, modelled by `ℚ`). -/
structure dynamic_map_S where
  data : ℤ → ℤ
  map_center_pixel : ℤ × ℤ
  map_offset_mm : ℚ × ℚ

/-- One store `mdata[idx] = v` into the flat buffer. -/
def updCell (d : ℤ → ℤ) (idx v : ℤ) : ℤ → ℤ :=
  fun k => if k = idx then v else d k

/-- A loop that stores the constant `v` at every index of `ks`, in order. -/
def setCells (d : ℤ → ℤ) (ks : List ℤ) (v : ℤ) : ℤ → ℤ :=
  ks.foldl (fun dd k => updCell dd k v) d

lemma setCells_apply (ks : List ℤ) (d : ℤ → ℤ) (v x : ℤ) :
    setCells d ks v x = if x ∈ ks then v else d x := by
  induction ks generalizing d with
  | nil => simp [setCells]
  | cons a t ih =>
      show setCells (updCell d a v) t v x = _
      rw [ih]
      by_cases hxt : x ∈ t
      · simp [hxt]
      · by_cases hxa : x = a
        · simp [hxt, hxa, updCell]
        · simp [hxt, hxa, updCell]

/-- The integer interval `[s, e)`, the iteration space of a C loop
    `for (i = s; i < e; i++)`. -/
def intRange (s e : ℤ) : List ℤ :=
  (List.range (e - s).toNat).map (fun (k : ℕ) => s + (k : ℤ))

lemma mem_intRange {s e x : ℤ} : x ∈ intRange s e ↔ s ≤ x ∧ x < e := by
  constructor
  · intro h
    rcases List.mem_map.mp h with ⟨k, hk, rfl⟩
    have := List.mem_range.mp hk
    omega
  · rintro ⟨h1, h2⟩
    refine List.mem_map.mpr ⟨(x - s).toNat, List.mem_range.mpr ?_, ?_⟩ <;> omega

lemma length_intRange (s e : ℤ) : (intRange s e).length = (e - s).toNat := by
  rw [intRange, List.length_map, List.length_range]

/-- `static INLINE void app_slam_private_resetGlobalMap(void)`:
    `memset(&slam_data.gMap, 0, sizeof(dynamic_map_S))` followed by setting
    `map_center_pixel` to the default central index.  Modelled as the
    resulting state. -/
def app_slam_private_resetGlobalMap : dynamic_map_S :=
  { data := fun _ => GRID_CELL_NEUTRAL
    map_center_pixel := ((GMAP_DEFAULT_CENTRAL_X_INDEX_PIXEL : ℤ),
                         (GMAP_DEFAULT_CENTRAL_Y_INDEX_PIXEL : ℤ))
    map_offset_mm := (0, 0) }

/-- `void app_slam_init(void)`: zeroes the whole module state and calls
    `app_slam_private_resetGlobalMap`; the resulting map state is exactly the
    reset state. -/
def app_slam_init : dynamic_map_S :=
  app_slam_private_resetGlobalMap

/-- Loop start for a band clear: `start = c; if (d >= 0) {} else { start += d; }`. -/
def bandStart (c d : ℤ) : ℤ := if 0 ≤ d then c else c + d

/-- Loop end for a band clear: `end = c; if (d >= 0) { end += d; }`. -/
def bandEnd (c d : ℤ) : ℤ := if 0 ≤ d then c + d else c

/-- The linear indices written by the vertical-column clearing loop of
    `app_slam_private_translateGlobalMap` (rows `j = 0 .. GMAP_HN_PIXEL-1`
    outer, band columns `i = start .. end-1` inner, index
    `y_index + x_index = j*GMAP_WN_PIXEL + wrap(i)`), in source order. -/
def colWrites (x00 dx : ℤ) : List ℤ :=
  (List.range GMAP_HN_PIXEL).flatMap (fun j =>
    (intRange (bandStart x00 dx) (bandEnd x00 dx)).map (fun i =>
      (j : ℤ) * (GMAP_WN_PIXEL : ℤ) + wrapIdx i))

/-- The linear indices written by the horizontal-row clearing loop of
    `app_slam_private_translateGlobalMap` (band rows `j = start .. end-1`
    outer, columns `i = 0 .. GMAP_WN_PIXEL-1` inner, index
    `wrap(j)*GMAP_WN_PIXEL + i`), in source order. -/
def rowWrites (y00 dy : ℤ) : List ℤ :=
  (intRange (bandStart y00 dy) (bandEnd y00 dy)).flatMap (fun j =>
    (List.range GMAP_WN_PIXEL).map (fun (i : ℕ) =>
      wrapIdx j * (GMAP_WN_PIXEL : ℤ) + (i : ℤ)))

/-- `static void app_slam_private_translateGlobalMap(int32_t dx_pixel, int32_t dy_pixel)`:
    clears the vertical band when `dx_pixel != 0`, then the horizontal band
    when `dy_pixel != 0` (both bands anchored at
    `x00 = map_center_pixel - GMAP_DEFAULT_CENTRAL_INDEX`), then advances the
    center by `(dx_pixel, dy_pixel)` and wraps each component. -/
def app_slam_private_translateGlobalMap (gm : dynamic_map_S)
    (dx_pixel dy_pixel : ℤ) : dynamic_map_S :=
  let x00 := gm.map_center_pixel.1 - (GMAP_DEFAULT_CENTRAL_X_INDEX_PIXEL : ℤ)
  let y00 := gm.map_center_pixel.2 - (GMAP_DEFAULT_CENTRAL_Y_INDEX_PIXEL : ℤ)
  let d1 := if dx_pixel ≠ 0 then
      setCells gm.data (colWrites x00 dx_pixel) GRID_CELL_NEUTRAL
    else gm.data
  let d2 := if dy_pixel ≠ 0 then
      setCells d1 (rowWrites y00 dy_pixel) GRID_CELL_NEUTRAL
    else d1
  { gm with
    data := d2
    map_center_pixel :=
      (wrapIdx (gm.map_center_pixel.1 + dx_pixel),
       wrapIdx (gm.map_center_pixel.2 + dy_pixel)) }

/-- `const int8_t PADDING[ROBOT_SIZE_D_PIXEL + 1U] = {4, 2, 1, 1, 0, 0, 0, 1, 1, 2, 4};` -/
def PADDING : List ℤ := [4, 2, 1, 1, 0, 0, 0, 1, 1, 2, 4]

/-- The linear indices written by `app_slam_private_clearVehicleRegion`:
    rows `j = 0 .. ROBOT_SIZE_D_PIXEL`, columns
    `i = PADDING[j] .. ROBOT_SIZE_D_PIXEL - PADDING[j]`, index
    `wrap(cy - R + j)*GMAP_WN_PIXEL + wrap(cx - R + i)`, in source order. -/
def vehicleWrites (mc : ℤ × ℤ) : List ℤ :=
  (List.range (ROBOT_SIZE_D_PIXEL + 1)).flatMap (fun j =>
    (intRange (PADDING.getD j 0) ((ROBOT_SIZE_D_PIXEL : ℤ) - PADDING.getD j 0 + 1)).map
      (fun i =>
        wrapIdx (mc.2 - (ROBOT_SIZE_R_PIXEL : ℤ) + (j : ℤ)) * (GMAP_WN_PIXEL : ℤ)
          + wrapIdx (mc.1 - (ROBOT_SIZE_R_PIXEL : ℤ) + i)))

/-- `static void app_slam_private_clearVehicleRegion(void)`: overwrites every
    cell of the padded footprint mask around `map_center_pixel` with
    `GRID_CELL_VISITED`. -/
def app_slam_private_clearVehicleRegion (gm : dynamic_map_S) : dynamic_map_S :=
  { gm with
    data := setCells gm.data (vehicleWrites gm.map_center_pixel) GRID_CELL_VISITED }

/-- Truncation toward zero, the behavior of the C cast `(int32_t)` applied to
    a float quotient: floor for nonnegative values, and ceiling (written as
    `-⌊-q⌋`) for negative ones. -/
def ratTrunc (q : ℚ) : ℤ := if 0 ≤ q then q.floor else -((-q).floor)

/-- `#define GMAP_MM_TO_UNIT_PIXEL(x_mm) (int32_t)((x_mm)/(GMAP_UNIT_GRID_STEP_SIZE_MM))` -/
def GMAP_MM_TO_UNIT_PIXEL (x_mm : ℚ) : ℤ :=
  ratTrunc (x_mm / (GMAP_UNIT_GRID_STEP_SIZE_MM : ℚ))

/-- `#define GMAP_UNIT_PIXEL_TO_MM(x_pixel) (float)((x_pixel) * (float)(GMAP_UNIT_GRID_STEP_SIZE_MM))` -/
def GMAP_UNIT_PIXEL_TO_MM (x_pixel : ℤ) : ℚ :=
  (x_pixel : ℚ) * (GMAP_UNIT_GRID_STEP_SIZE_MM : ℚ)

/-- One axis of the drift accumulator inside
    `app_slam_private_globalMapUpdate` (lines 275-287): add the tick's
    requested displacement to the stored leftover, convert to whole pixels by
    truncation toward zero, and keep the remainder as the new leftover.
    Returns `(shift_pixels, new_leftover_mm)`. -/
def driftStep (req_mm leftover_mm : ℚ) : ℤ × ℚ :=
  let d_mm := req_mm + leftover_mm
  let d_pixel := GMAP_MM_TO_UNIT_PIXEL d_mm
  (d_pixel, d_mm - GMAP_UNIT_PIXEL_TO_MM d_pixel)

/-- The drift accumulator iterated over a finite sequence of per-tick
    requested displacements on one axis; returns the per-tick pixel shifts
    and the final leftover. -/
def driftRun : List ℚ → ℚ → List ℤ × ℚ
  | [], leftover => ([], leftover)
  | req :: reqs, leftover =>
      let p := driftStep req leftover
      let q := driftRun reqs p.2
      (p.1 :: q.1, q.2)

/-- `static void app_slam_private_globalMapUpdate(void)` with the externally
    supplied displacement made an explicit argument: runs the drift
    accumulator on each axis, translates the map by the resulting pixel
    shifts, stores the leftovers, then clears the vehicle region. -/
def app_slam_private_globalMapUpdate (gm : dynamic_map_S) (d_mm : ℚ × ℚ) :
    dynamic_map_S :=
  let px := driftStep d_mm.1 gm.map_offset_mm.1
  let py := driftStep d_mm.2 gm.map_offset_mm.2
  let gm1 := app_slam_private_translateGlobalMap gm px.1 py.1
  let gm2 := { gm1 with map_offset_mm := (px.2, py.2) }
  app_slam_private_clearVehicleRegion gm2

/-- Both components of `map_center_pixel` lie inside the storage range
    `[0, GMAP_GRID_EDGE_SIZE_PIXEL]`. -/
def centerInRange (gm : dynamic_map_S) : Prop :=
  0 ≤ gm.map_center_pixel.1 ∧ gm.map_center_pixel.1 ≤ (GMAP_GRID_EDGE_SIZE_PIXEL : ℤ) ∧
  0 ≤ gm.map_center_pixel.2 ∧ gm.map_center_pixel.2 ≤ (GMAP_GRID_EDGE_SIZE_PIXEL : ℤ)

instance (gm : dynamic_map_S) : Decidable (centerInRange gm) := by
  unfold centerInRange; infer_instance

/-- The wrapped storage columns of the vertical band cleared by a horizontal
    shift `dx` (empty when `dx = 0`). -/
def exposedCols (gm : dynamic_map_S) (dx : ℤ) : List ℤ :=
  (intRange (bandStart (gm.map_center_pixel.1 - (GMAP_DEFAULT_CENTRAL_X_INDEX_PIXEL : ℤ)) dx)
            (bandEnd (gm.map_center_pixel.1 - (GMAP_DEFAULT_CENTRAL_X_INDEX_PIXEL : ℤ)) dx)).map
    wrapIdx

/-- The wrapped storage rows of the horizontal band cleared by a vertical
    shift `dy` (empty when `dy = 0`). -/
def exposedRows (gm : dynamic_map_S) (dy : ℤ) : List ℤ :=
  (intRange (bandStart (gm.map_center_pixel.2 - (GMAP_DEFAULT_CENTRAL_Y_INDEX_PIXEL : ℤ)) dy)
            (bandEnd (gm.map_center_pixel.2 - (GMAP_DEFAULT_CENTRAL_Y_INDEX_PIXEL : ℤ)) dy)).map
    wrapIdx

lemma cast_GMAP_WN_PIXEL : ((GMAP_WN_PIXEL : ℕ) : ℤ) = 101 := rfl

lemma cast_ROBOT_SIZE_D_PIXEL : ((ROBOT_SIZE_D_PIXEL : ℕ) : ℤ) = 10 := rfl

lemma cast_ROBOT_SIZE_R_PIXEL : ((ROBOT_SIZE_R_PIXEL : ℕ) : ℤ) = 5 := rfl

lemma cast_GMAP_GRID_EDGE_SIZE_PIXEL : ((GMAP_GRID_EDGE_SIZE_PIXEL : ℕ) : ℤ) = 100 := rfl

/-- Raw membership in the vertical-band write list. -/
lemma mem_colWrites {x00 dx k : ℤ} :
    k ∈ colWrites x00 dx ↔ ∃ j : ℕ, j < GMAP_HN_PIXEL ∧ ∃ i : ℤ,
      (bandStart x00 dx ≤ i ∧ i < bandEnd x00 dx) ∧
      k = (j : ℤ) * (GMAP_WN_PIXEL : ℤ) + wrapIdx i := by
  simp only [colWrites, List.mem_flatMap, List.mem_map, List.mem_range]
  constructor
  · rintro ⟨j, hj, i, hi, rfl⟩
    exact ⟨j, hj, i, mem_intRange.mp hi, rfl⟩
  · rintro ⟨j, hj, i, hi, rfl⟩
    exact ⟨j, hj, i, mem_intRange.mpr hi, rfl⟩

/-- Raw membership in the horizontal-band write list. -/
lemma mem_rowWrites {y00 dy k : ℤ} :
    k ∈ rowWrites y00 dy ↔ ∃ j : ℤ,
      (bandStart y00 dy ≤ j ∧ j < bandEnd y00 dy) ∧ ∃ i : ℕ, i < GMAP_WN_PIXEL ∧
      k = wrapIdx j * (GMAP_WN_PIXEL : ℤ) + (i : ℤ) := by
  simp only [rowWrites, List.mem_flatMap, List.mem_map, List.mem_range]
  constructor
  · rintro ⟨j, hj, i, hi, rfl⟩
    exact ⟨j, mem_intRange.mp hj, i, hi, rfl⟩
  · rintro ⟨j, hj, i, hi, rfl⟩
    exact ⟨j, mem_intRange.mpr hj, i, hi, rfl⟩

/-- For a decomposed in-range linear index, membership in the vertical-band
    write list only constrains the column. -/
lemma mem_colWrites_iff {x00 dx X Y : ℤ}
    (hs : -101 ≤ bandStart x00 dx) (he : bandEnd x00 dx ≤ 202)
    (hX : 0 ≤ X) (hX' : X ≤ 100) (hY : 0 ≤ Y) (hY' : Y ≤ 100) :
    (Y * (GMAP_WN_PIXEL : ℤ) + X ∈ colWrites x00 dx) ↔
      ∃ i : ℤ, (bandStart x00 dx ≤ i ∧ i < bandEnd x00 dx) ∧ wrapIdx i = X := by
  rw [mem_colWrites]
  constructor
  · rintro ⟨j, hj, i, hi, heq⟩
    have hw := wrapIdx_range i (by omega) (by omega)
    rw [GMAP_HN_PIXEL_eq] at hj
    rw [cast_GMAP_WN_PIXEL] at heq
    exact ⟨i, hi, by omega⟩
  · rintro ⟨i, hi, hwi⟩
    refine ⟨Y.toNat, by rw [GMAP_HN_PIXEL_eq]; omega, i, hi, ?_⟩
    rw [cast_GMAP_WN_PIXEL, hwi]
    omega

/-- For a decomposed in-range linear index, membership in the horizontal-band
    write list only constrains the row. -/
lemma mem_rowWrites_iff {y00 dy X Y : ℤ}
    (hs : -101 ≤ bandStart y00 dy) (he : bandEnd y00 dy ≤ 202)
    (hX : 0 ≤ X) (hX' : X ≤ 100) (_hY : 0 ≤ Y) (_hY' : Y ≤ 100) :
    (Y * (GMAP_WN_PIXEL : ℤ) + X ∈ rowWrites y00 dy) ↔
      ∃ j : ℤ, (bandStart y00 dy ≤ j ∧ j < bandEnd y00 dy) ∧ wrapIdx j = Y := by
  rw [mem_rowWrites]
  constructor
  · rintro ⟨j, hj, i, hi, heq⟩
    have hw := wrapIdx_range j (by omega) (by omega)
    rw [GMAP_WN_PIXEL_eq] at hi
    rw [cast_GMAP_WN_PIXEL] at heq
    exact ⟨j, hj, by omega⟩
  · rintro ⟨j, hj, hwj⟩
    refine ⟨j, hj, X.toNat, by rw [GMAP_WN_PIXEL_eq]; omega, ?_⟩
    rw [cast_GMAP_WN_PIXEL, hwj]
    omega

/-- Every `PADDING` entry lies in `[0, 4]`. -/
lemma PADDING_getD_bounds : ∀ jn : ℕ, jn < 11 →
    0 ≤ PADDING.getD jn 0 ∧ PADDING.getD jn 0 ≤ 4 := by decide

/-- The `PADDING` table reads the same from both ends. -/
lemma PADDING_getD_symm : ∀ jn : ℕ, jn < 11 →
    PADDING.getD jn 0 = PADDING.getD (10 - jn) 0 := by decide

/-- Membership of a footprint-window cell in the vehicle-region write list is
    exactly the padded-row mask from the source loops. -/
lemma mem_vehicleWrites_iff {mc : ℤ × ℤ}
    (hc1 : 0 ≤ mc.1) (hc1' : mc.1 ≤ 100) (hc2 : 0 ≤ mc.2) (hc2' : mc.2 ≤ 100)
    (i j : ℤ) (hi : 0 ≤ i) (hi' : i ≤ 10) (hj : 0 ≤ j) (hj' : j ≤ 10) :
    (wrapIdx (mc.2 - (ROBOT_SIZE_R_PIXEL : ℤ) + j) * (GMAP_WN_PIXEL : ℤ)
        + wrapIdx (mc.1 - (ROBOT_SIZE_R_PIXEL : ℤ) + i) ∈ vehicleWrites mc) ↔
      (PADDING.getD j.toNat 0 ≤ i ∧ i ≤ 10 - PADDING.getD j.toNat 0) := by
  simp only [vehicleWrites, List.mem_flatMap, List.mem_map, List.mem_range,
    ROBOT_SIZE_D_PIXEL_eq, cast_ROBOT_SIZE_R_PIXEL, cast_ROBOT_SIZE_D_PIXEL,
    cast_GMAP_WN_PIXEL, Nat.cast_ofNat]
  constructor
  · rintro ⟨j', hj'lt, i', hi'mem, heq⟩
    rw [mem_intRange] at hi'mem
    have hpadb := PADDING_getD_bounds j' hj'lt
    have hwyr := wrapIdx_range (mc.2 - 5 + (j' : ℤ)) (by omega) (by omega)
    have hwxr := wrapIdx_range (mc.1 - 5 + i') (by omega) (by omega)
    have hwy := wrapIdx_range (mc.2 - 5 + j) (by omega) (by omega)
    have hwx := wrapIdx_range (mc.1 - 5 + i) (by omega) (by omega)
    have hcomp : wrapIdx (mc.2 - 5 + (j' : ℤ)) = wrapIdx (mc.2 - 5 + j) ∧
        wrapIdx (mc.1 - 5 + i') = wrapIdx (mc.1 - 5 + i) := by
      constructor <;> omega
    have hjj : (j' : ℤ) = j :=
      have := wrapIdx_inj (mc.2 - 5 + (j' : ℤ)) (mc.2 - 5 + j)
        (by omega) (by omega) hcomp.1
      by omega
    have hii : i' = i :=
      have := wrapIdx_inj (mc.1 - 5 + i') (mc.1 - 5 + i)
        (by omega) (by omega) hcomp.2
      by omega
    have hj'toNat : j' = j.toNat := by omega
    rw [hj'toNat, hii] at hi'mem
    omega
  · rintro ⟨hpl, hpr⟩
    refine ⟨j.toNat, by omega, i, ?_, ?_⟩
    · rw [mem_intRange]
      omega
    · have : ((j.toNat : ℕ) : ℤ) = j := by omega
      rw [this]

/-- Bridge from the executable `Rat.floor` to Mathlib's `Int.floor` so that
    `norm_num` can evaluate concrete drift computations. -/
lemma ratFloor_eq_intFloor (q : ℚ) : q.floor = ⌊q⌋ := by
  rw [Rat.floor_def', Rat.floor_def]

/-- **C1** Wraparound correctness: for every integer coordinate `c` in
    `[-E, 2E]` (`E = 100`), the wrap operation (adding the `MAP_OFFSET` entry
    selected by `ARG_RANGE_INCLUSIVE(c, 0, E+1)`) returns a coordinate in
    `[0, E]` congruent to `c` modulo `E+1`, and the value added is exactly
    `+(E+1)` when `c < 0`, `-(E+1)` when `c > E`, and `0` otherwise. -/
theorem wraparound_correct (c : ℤ)
    (h1 : -(GMAP_GRID_EDGE_SIZE_PIXEL : ℤ) ≤ c)
    (h2 : c ≤ 2 * (GMAP_GRID_EDGE_SIZE_PIXEL : ℤ)) :
    (0 ≤ wrapIdx c ∧ wrapIdx c ≤ (GMAP_GRID_EDGE_SIZE_PIXEL : ℤ))
    ∧ wrapIdx c % ((GMAP_GRID_EDGE_SIZE_PIXEL : ℤ) + 1)
        = c % ((GMAP_GRID_EDGE_SIZE_PIXEL : ℤ) + 1)
    ∧ wrapIdx c - c =
        (if c < 0 then (GMAP_GRID_EDGE_SIZE_PIXEL : ℤ) + 1
         else if (GMAP_GRID_EDGE_SIZE_PIXEL : ℤ) < c
         then -((GMAP_GRID_EDGE_SIZE_PIXEL : ℤ) + 1)
         else 0) := by
  rw [cast_GMAP_GRID_EDGE_SIZE_PIXEL] at h1 h2 ⊢
  rw [wrapIdx_eq]
  split_ifs <;> omega

theorem wraparound_correct_witness :
    wrapIdx (-7) % ((GMAP_GRID_EDGE_SIZE_PIXEL : ℤ) + 1)
      = (-7) % ((GMAP_GRID_EDGE_SIZE_PIXEL : ℤ) + 1) :=
  (wraparound_correct (-7) (by decide) (by decide)).2.1

/-- **C8** Reset correctness: after `app_slam_private_resetGlobalMap` (also
    run by `app_slam_init`), every cell equals the neutral value `0`, both
    components of the center index equal the fixed logical center
    `E/2 = 50`, and both sub-pixel leftovers are `0`. -/
theorem reset_correct :
    (∀ k : ℤ, app_slam_private_resetGlobalMap.data k = GRID_CELL_NEUTRAL)
    ∧ app_slam_private_resetGlobalMap.map_center_pixel = (50, 50)
    ∧ app_slam_private_resetGlobalMap.map_center_pixel
        = ((GMAP_GRID_EDGE_SIZE_PIXEL : ℤ) / 2, (GMAP_GRID_EDGE_SIZE_PIXEL : ℤ) / 2)
    ∧ app_slam_private_resetGlobalMap.map_offset_mm = (0, 0)
    ∧ app_slam_init = app_slam_private_resetGlobalMap :=
  ⟨fun _ => rfl, by decide, by decide, rfl, rfl⟩

/-- **C3** Translation idempotence under zero shift: with `(dx, dy) = (0, 0)`
    every cell of the buffer and both components of the center index are
    unchanged by `app_slam_private_translateGlobalMap`. -/
theorem translate_zero_shift (gm : dynamic_map_S) (h : centerInRange gm) :
    (∀ k : ℤ, (app_slam_private_translateGlobalMap gm 0 0).data k = gm.data k)
    ∧ (app_slam_private_translateGlobalMap gm 0 0).map_center_pixel
        = gm.map_center_pixel := by
  obtain ⟨h1, h2, h3, h4⟩ := h
  rw [cast_GMAP_GRID_EDGE_SIZE_PIXEL] at h2 h4
  constructor
  · intro k
    simp [app_slam_private_translateGlobalMap]
  · simp [app_slam_private_translateGlobalMap, wrapIdx_id h1 h2, wrapIdx_id h3 h4]

theorem translate_zero_shift_witness :
    (app_slam_private_translateGlobalMap app_slam_private_resetGlobalMap 0 0).map_center_pixel
      = app_slam_private_resetGlobalMap.map_center_pixel :=
  (translate_zero_shift app_slam_private_resetGlobalMap (by decide)).2

/-- **C5** Truncation-toward-zero policy: a combined displacement of `-5` mm
    with a 10 mm grid step yields pixel shift `0` and leftover `-5` mm, while
    the floor of the same quotient would be `-1`. -/
theorem truncation_toward_zero :
    driftStep (-5) 0 = (0, -5)
    ∧ GMAP_MM_TO_UNIT_PIXEL (-5) = 0
    ∧ ((-5 : ℚ) / (GMAP_UNIT_GRID_STEP_SIZE_MM : ℚ)).floor = -1 := by
  refine ⟨?_, ?_, ?_⟩ <;>
    norm_num [driftStep, GMAP_MM_TO_UNIT_PIXEL, ratTrunc, ratFloor_eq_intFloor,
      GMAP_UNIT_PIXEL_TO_MM, GMAP_UNIT_GRID_STEP_SIZE_MM, Prod.ext_iff]

/-- **C4** Drift accumulation conservation: on one axis, for any finite
    sequence of per-tick requested displacements and any initial leftover,
    the sum of applied pixel shifts converted back to mm plus the final
    leftover equals the sum of the requests plus the initial leftover; and
    the concrete run with requests `[-10, -10]` from leftover `0` yields
    shifts `[-1, -1]` and final leftover `0`. -/
theorem drift_conservation :
    (∀ (reqs : List ℚ) (leftover0 : ℚ),
        ((driftRun reqs leftover0).1.map GMAP_UNIT_PIXEL_TO_MM).sum
            + (driftRun reqs leftover0).2
          = reqs.sum + leftover0)
    ∧ driftRun [-10, -10] 0 = ([-1, -1], 0) := by
  constructor
  · intro reqs
    induction reqs with
    | nil => intro l0; simp [driftRun]
    | cons r rs ih =>
        intro l0
        have hstep : GMAP_UNIT_PIXEL_TO_MM (driftStep r l0).1 + (driftStep r l0).2
            = r + l0 := by
          simp only [driftStep, GMAP_UNIT_PIXEL_TO_MM]
          ring
        have ihh := ih (driftStep r l0).2
        simp only [driftRun, List.map_cons, List.sum_cons]
        linarith
  · norm_num [driftRun, driftStep, GMAP_MM_TO_UNIT_PIXEL, ratTrunc,
      ratFloor_eq_intFloor, GMAP_UNIT_PIXEL_TO_MM, GMAP_UNIT_GRID_STEP_SIZE_MM,
      Prod.ext_iff]

/-- **C6** evidence: the code performs no precondition check — a pixel shift
    beyond the one-grid-width bound (here `dx = 200 > E = 100` from the reset
    state) is wrapped only once, the tick raises no fault, and the resulting
    center index `149` lies outside `[0, E]` (a silently corrupted index,
    with the map buffer also partially cleared rather than left unmodified). -/
theorem precondition_violation_silently_corrupts :
    (app_slam_private_translateGlobalMap app_slam_private_resetGlobalMap 200 0).map_center_pixel.1
      = 149
    ∧ ¬ centerInRange
        (app_slam_private_translateGlobalMap app_slam_private_resetGlobalMap 200 0) := by
  refine ⟨?_, ?_⟩ <;> decide

lemma intRange_self (s : ℤ) : intRange s s = [] := by
  simp [intRange]

lemma exposedCols_zero (gm : dynamic_map_S) : exposedCols gm 0 = [] := by
  unfold exposedCols bandStart bandEnd
  norm_num [intRange_self]

lemma exposedRows_zero (gm : dynamic_map_S) : exposedRows gm 0 = [] := by
  unfold exposedRows bandStart bandEnd
  norm_num [intRange_self]

lemma cast_GMAP_DEFAULT_CENTRAL_X : ((GMAP_DEFAULT_CENTRAL_X_INDEX_PIXEL : ℕ) : ℤ) = 50 := rfl

lemma cast_GMAP_DEFAULT_CENTRAL_Y : ((GMAP_DEFAULT_CENTRAL_Y_INDEX_PIXEL : ℕ) : ℤ) = 50 := rfl

/-- Pointwise effect of `app_slam_private_translateGlobalMap` on an in-range
    decomposed linear index `Y*101 + X`, for shifts inside the wraparound
    precondition: the cell is neutral exactly when its column lies in the
    cleared vertical band or its row lies in the cleared horizontal band, and
    holds its previous value otherwise. -/
lemma translate_data_apply (gm : dynamic_map_S) (dx dy X Y : ℤ)
    (hc : centerInRange gm)
    (hdx1 : -50 ≤ gm.map_center_pixel.1 + dx) (hdx2 : gm.map_center_pixel.1 + dx ≤ 200)
    (hdy1 : -50 ≤ gm.map_center_pixel.2 + dy) (hdy2 : gm.map_center_pixel.2 + dy ≤ 200)
    (hX : 0 ≤ X) (hX' : X ≤ 100) (hY : 0 ≤ Y) (hY' : Y ≤ 100) :
    (app_slam_private_translateGlobalMap gm dx dy).data (Y * (GMAP_WN_PIXEL : ℤ) + X)
      = if X ∈ exposedCols gm dx ∨ Y ∈ exposedRows gm dy then GRID_CELL_NEUTRAL
        else gm.data (Y * (GMAP_WN_PIXEL : ℤ) + X) := by
  obtain ⟨hc1, hc2, hc3, hc4⟩ := hc
  rw [cast_GMAP_GRID_EDGE_SIZE_PIXEL] at hc2 hc4
  have hsx : -101 ≤ bandStart (gm.map_center_pixel.1 - 50) dx := by
    unfold bandStart; split_ifs <;> omega
  have hex : bandEnd (gm.map_center_pixel.1 - 50) dx ≤ 202 := by
    unfold bandEnd; split_ifs <;> omega
  have hsy : -101 ≤ bandStart (gm.map_center_pixel.2 - 50) dy := by
    unfold bandStart; split_ifs <;> omega
  have hey : bandEnd (gm.map_center_pixel.2 - 50) dy ≤ 202 := by
    unfold bandEnd; split_ifs <;> omega
  have hcolE : (Y * (GMAP_WN_PIXEL : ℤ) + X ∈ colWrites (gm.map_center_pixel.1 - 50) dx)
      ↔ X ∈ exposedCols gm dx := by
    rw [mem_colWrites_iff hsx hex hX hX' hY hY']
    simp only [exposedCols, cast_GMAP_DEFAULT_CENTRAL_X, List.mem_map]
    constructor
    · rintro ⟨i, hi, hwi⟩; exact ⟨i, mem_intRange.mpr hi, hwi⟩
    · rintro ⟨i, hi, hwi⟩; exact ⟨i, mem_intRange.mp hi, hwi⟩
  have hrowE : (Y * (GMAP_WN_PIXEL : ℤ) + X ∈ rowWrites (gm.map_center_pixel.2 - 50) dy)
      ↔ Y ∈ exposedRows gm dy := by
    rw [mem_rowWrites_iff hsy hey hX hX' hY hY']
    simp only [exposedRows, cast_GMAP_DEFAULT_CENTRAL_Y, List.mem_map]
    constructor
    · rintro ⟨j, hj, hwj⟩; exact ⟨j, mem_intRange.mpr hj, hwj⟩
    · rintro ⟨j, hj, hwj⟩; exact ⟨j, mem_intRange.mp hj, hwj⟩
  simp only [app_slam_private_translateGlobalMap, cast_GMAP_DEFAULT_CENTRAL_X,
    cast_GMAP_DEFAULT_CENTRAL_Y]
  by_cases hdx0 : dx = 0
  · subst hdx0
    by_cases hdy0 : dy = 0
    · subst hdy0
      simp [exposedCols_zero, exposedRows_zero]
    · simp only [ne_eq, not_true_eq_false, if_false, hdy0, not_false_eq_true, if_true]
      rw [setCells_apply]
      simp only [hrowE, exposedCols_zero]
      by_cases hYr : Y ∈ exposedRows gm dy <;> simp [hYr]
  · by_cases hdy0 : dy = 0
    · subst hdy0
      simp only [ne_eq, not_true_eq_false, if_false, hdx0, not_false_eq_true, if_true]
      rw [setCells_apply]
      simp only [hcolE, exposedRows_zero]
      by_cases hXc : X ∈ exposedCols gm dx <;> simp [hXc]
    · simp only [ne_eq, hdx0, hdy0, not_false_eq_true, if_true]
      rw [setCells_apply, setCells_apply]
      simp only [hcolE, hrowE]
      by_cases hXc : X ∈ exposedCols gm dx <;>
        by_cases hYr : Y ∈ exposedRows gm dy <;>
          simp [hXc, hYr]

/-- **C2** Translation coverage: for every map state with an in-range center
    and every shift inside the wraparound precondition, after
    `app_slam_private_translateGlobalMap` every cell in the newly-exposed
    band (the wrapped band columns/rows) is neutral and every cell outside
    both bands holds the value it held before the shift; the vertical band
    consists of exactly `|dx|` columns and the horizontal band of exactly
    `|dy|` rows (so the concrete case `center=(50,50)`, shift `(+1,0)` clears
    exactly one column of 101 cells and leaves all else unchanged). -/
theorem translate_coverage (gm : dynamic_map_S) (dx dy X Y : ℤ)
    (hc : centerInRange gm)
    (hdx1 : -50 ≤ gm.map_center_pixel.1 + dx) (hdx2 : gm.map_center_pixel.1 + dx ≤ 200)
    (hdy1 : -50 ≤ gm.map_center_pixel.2 + dy) (hdy2 : gm.map_center_pixel.2 + dy ≤ 200)
    (hX : 0 ≤ X) (hX' : X ≤ 100) (hY : 0 ≤ Y) (hY' : Y ≤ 100) :
    ((X ∈ exposedCols gm dx ∨ Y ∈ exposedRows gm dy) →
        (app_slam_private_translateGlobalMap gm dx dy).data (Y * (GMAP_WN_PIXEL : ℤ) + X)
          = GRID_CELL_NEUTRAL)
    ∧ (X ∉ exposedCols gm dx → Y ∉ exposedRows gm dy →
        (app_slam_private_translateGlobalMap gm dx dy).data (Y * (GMAP_WN_PIXEL : ℤ) + X)
          = gm.data (Y * (GMAP_WN_PIXEL : ℤ) + X))
    ∧ (exposedCols gm dx).length = dx.natAbs
    ∧ (exposedRows gm dy).length = dy.natAbs := by
  have hmain := translate_data_apply gm dx dy X Y hc hdx1 hdx2 hdy1 hdy2 hX hX' hY hY'
  refine ⟨?_, ?_, ?_, ?_⟩
  · intro hband
    rw [hmain, if_pos hband]
  · intro hXc hYr
    rw [hmain, if_neg (by tauto)]
  · unfold exposedCols
    rw [List.length_map, length_intRange]
    unfold bandStart bandEnd
    split_ifs <;> omega
  · unfold exposedRows
    rw [List.length_map, length_intRange]
    unfold bandStart bandEnd
    split_ifs <;> omega

/-- Witness for `translate_coverage` at the concrete case: reset state
    (center `(50,50)`), shift `(+1, 0)`; storage column `0` is the single
    exposed column, so cell `(X,Y) = (0,7)` becomes neutral, cell `(3,7)` is
    unchanged, and the band sizes are `1` column and `0` rows. -/
theorem translate_coverage_witness :
    (app_slam_private_translateGlobalMap app_slam_private_resetGlobalMap 1 0).data
        (7 * (GMAP_WN_PIXEL : ℤ) + 0) = GRID_CELL_NEUTRAL
    ∧ (app_slam_private_translateGlobalMap app_slam_private_resetGlobalMap 1 0).data
        (7 * (GMAP_WN_PIXEL : ℤ) + 3)
      = app_slam_private_resetGlobalMap.data (7 * (GMAP_WN_PIXEL : ℤ) + 3)
    ∧ (exposedCols app_slam_private_resetGlobalMap 1).length = 1
    ∧ (exposedRows app_slam_private_resetGlobalMap 0).length = 0 := by
  have h := translate_coverage app_slam_private_resetGlobalMap 1 0 0 7
    (by decide) (by decide) (by decide) (by decide) (by decide)
    (by decide) (by decide) (by decide) (by decide)
  have h' := translate_coverage app_slam_private_resetGlobalMap 1 0 3 7
    (by decide) (by decide) (by decide) (by decide) (by decide)
    (by decide) (by decide) (by decide) (by decide)
  refine ⟨h.1 (Or.inl (by decide)), h'.2.1 (by decide) (by decide), h.2.2.1, h.2.2.2⟩

/-- **C7** Footprint mask symmetry: for every map state with an in-range
    center, the set of cells overwritten with the visited value by
    `app_slam_private_clearVehicleRegion` (the indices of its write list
    `vehicleWrites`, every one of which ends up holding `GRID_CELL_VISITED`)
    is symmetric about both the vertical axis (`i ↦ 10 - i`) and the
    horizontal axis (`j ↦ 10 - j`) through `map_center_pixel`. -/
theorem footprint_symmetric (gm : dynamic_map_S) (hc : centerInRange gm)
    (i j : ℤ) (hi : 0 ≤ i) (hi' : i ≤ 10) (hj : 0 ≤ j) (hj' : j ≤ 10) :
    (wrapIdx (gm.map_center_pixel.2 - (ROBOT_SIZE_R_PIXEL : ℤ) + j) * (GMAP_WN_PIXEL : ℤ)
          + wrapIdx (gm.map_center_pixel.1 - (ROBOT_SIZE_R_PIXEL : ℤ) + i)
        ∈ vehicleWrites gm.map_center_pixel
      ↔ wrapIdx (gm.map_center_pixel.2 - (ROBOT_SIZE_R_PIXEL : ℤ) + j) * (GMAP_WN_PIXEL : ℤ)
          + wrapIdx (gm.map_center_pixel.1 - (ROBOT_SIZE_R_PIXEL : ℤ) + (10 - i))
        ∈ vehicleWrites gm.map_center_pixel)
    ∧ (wrapIdx (gm.map_center_pixel.2 - (ROBOT_SIZE_R_PIXEL : ℤ) + j) * (GMAP_WN_PIXEL : ℤ)
          + wrapIdx (gm.map_center_pixel.1 - (ROBOT_SIZE_R_PIXEL : ℤ) + i)
        ∈ vehicleWrites gm.map_center_pixel
      ↔ wrapIdx (gm.map_center_pixel.2 - (ROBOT_SIZE_R_PIXEL : ℤ) + (10 - j)) * (GMAP_WN_PIXEL : ℤ)
          + wrapIdx (gm.map_center_pixel.1 - (ROBOT_SIZE_R_PIXEL : ℤ) + i)
        ∈ vehicleWrites gm.map_center_pixel)
    ∧ (∀ k : ℤ, k ∈ vehicleWrites gm.map_center_pixel →
        (app_slam_private_clearVehicleRegion gm).data k = GRID_CELL_VISITED) := by
  obtain ⟨hc1, hc2, hc3, hc4⟩ := hc
  rw [cast_GMAP_GRID_EDGE_SIZE_PIXEL] at hc2 hc4
  have h1 := mem_vehicleWrites_iff hc1 hc2 hc3 hc4 i j hi hi' hj hj'
  have h2 := mem_vehicleWrites_iff hc1 hc2 hc3 hc4
    (10 - i) j (by omega) (by omega) hj hj'
  have h3 := mem_vehicleWrites_iff hc1 hc2 hc3 hc4
    i (10 - j) hi hi' (by omega) (by omega)
  have hjN : (10 - j).toNat = 10 - j.toNat := by omega
  have hsymm := PADDING_getD_symm j.toNat (by omega)
  have hsymm' : PADDING.getD (10 - j).toNat 0 = PADDING.getD j.toNat 0 := by
    rw [hjN, ← hsymm]
  refine ⟨?_, ?_, ?_⟩
  · rw [h1, h2]
    omega
  · rw [h1, h3, hsymm']
  · intro k hk
    show setCells gm.data (vehicleWrites gm.map_center_pixel) GRID_CELL_VISITED k = _
    rw [setCells_apply, if_pos hk]

/-- Witness for `footprint_symmetric` at the reset state, offsets
    `(i, j) = (4, 0)`. -/
theorem footprint_symmetric_witness :
    wrapIdx (app_slam_private_resetGlobalMap.map_center_pixel.2 - (ROBOT_SIZE_R_PIXEL : ℤ) + 0)
          * (GMAP_WN_PIXEL : ℤ)
        + wrapIdx (app_slam_private_resetGlobalMap.map_center_pixel.1 - (ROBOT_SIZE_R_PIXEL : ℤ) + 4)
      ∈ vehicleWrites app_slam_private_resetGlobalMap.map_center_pixel
    ↔ wrapIdx (app_slam_private_resetGlobalMap.map_center_pixel.2 - (ROBOT_SIZE_R_PIXEL : ℤ) + 0)
          * (GMAP_WN_PIXEL : ℤ)
        + wrapIdx (app_slam_private_resetGlobalMap.map_center_pixel.1 - (ROBOT_SIZE_R_PIXEL : ℤ) + (10 - 4))
      ∈ vehicleWrites app_slam_private_resetGlobalMap.map_center_pixel :=
  (footprint_symmetric app_slam_private_resetGlobalMap (by decide) 4 0
    (by decide) (by decide) (by decide) (by decide)).1

/-- **C9** Center-index invariant: both components of `map_center_pixel` lie
    in `[0, E]` in the reset state, after any translation whose shift stays
    inside the wraparound precondition, and after any footprint clearing. -/
theorem center_index_invariant :
    centerInRange app_slam_private_resetGlobalMap
    ∧ (∀ (gm : dynamic_map_S) (dx dy : ℤ), centerInRange gm →
        -(GMAP_GRID_EDGE_SIZE_PIXEL : ℤ) ≤ gm.map_center_pixel.1 + dx →
        gm.map_center_pixel.1 + dx ≤ 2 * (GMAP_GRID_EDGE_SIZE_PIXEL : ℤ) →
        -(GMAP_GRID_EDGE_SIZE_PIXEL : ℤ) ≤ gm.map_center_pixel.2 + dy →
        gm.map_center_pixel.2 + dy ≤ 2 * (GMAP_GRID_EDGE_SIZE_PIXEL : ℤ) →
        centerInRange (app_slam_private_translateGlobalMap gm dx dy))
    ∧ (∀ gm : dynamic_map_S, centerInRange gm →
        centerInRange (app_slam_private_clearVehicleRegion gm)) := by
  refine ⟨by decide, ?_, fun gm h => h⟩
  intro gm dx dy hc h1 h2 h3 h4
  rw [cast_GMAP_GRID_EDGE_SIZE_PIXEL] at h1 h2 h3 h4
  have hx := wrapIdx_range (gm.map_center_pixel.1 + dx) (by omega) (by omega)
  have hy := wrapIdx_range (gm.map_center_pixel.2 + dy) (by omega) (by omega)
  unfold centerInRange app_slam_private_translateGlobalMap
  rw [cast_GMAP_GRID_EDGE_SIZE_PIXEL]
  exact ⟨hx.1, hx.2, hy.1, hy.2⟩

/-- Witness for `center_index_invariant`: a translation by `(100, -50)` from
    the reset state keeps the center inside `[0, E]`. -/
theorem center_index_invariant_witness :
    centerInRange
      (app_slam_private_translateGlobalMap app_slam_private_resetGlobalMap 100 (-50)) :=
  center_index_invariant.2.1 app_slam_private_resetGlobalMap 100 (-50)
    (by decide) (by decide) (by decide) (by decide) (by decide)

/-- The states of the mapping core reachable from the reset state by the
    core's own mutating operations: translation (any pixel shift) and
    vehicle-region clearing.  These are the only writers of the map buffer
    in the source. -/
inductive Reachable : dynamic_map_S → Prop
  | reset : Reachable app_slam_private_resetGlobalMap
  | translate (gm : dynamic_map_S) (dx dy : ℤ) :
      Reachable gm → Reachable (app_slam_private_translateGlobalMap gm dx dy)
  | clear (gm : dynamic_map_S) :
      Reachable gm → Reachable (app_slam_private_clearVehicleRegion gm)

/-- **C10** Implicit cell-value invariant: starting from the reset state,
    every cell of every reachable map state is either `GRID_CELL_NEUTRAL`
    (`0`) or `GRID_CELL_VISITED` (`-10`), hence always inside the walkable
    band `[-20, 20]`; the occupancy and edge ranges are never produced by
    the core itself. -/
theorem cell_value_invariant (gm : dynamic_map_S) (h : Reachable gm) (k : ℤ) :
    (gm.data k = GRID_CELL_NEUTRAL ∨ gm.data k = GRID_CELL_VISITED)
    ∧ GRID_CELL_WALKABLE_THRESHOLD_MIN ≤ gm.data k
    ∧ gm.data k ≤ GRID_CELL_WALKABLE_THRESHOLD_MAX := by
  have main : ∀ g : dynamic_map_S, Reachable g → ∀ x : ℤ,
      g.data x = GRID_CELL_NEUTRAL ∨ g.data x = GRID_CELL_VISITED := by
    intro g hg
    induction hg with
    | reset => intro x; left; rfl
    | translate g' dx dy _ ih =>
        intro x
        have hdata : (app_slam_private_translateGlobalMap g' dx dy).data
            = (if dy ≠ 0 then
                setCells
                  (if dx ≠ 0 then
                    setCells g'.data
                      (colWrites
                        (g'.map_center_pixel.1 - (GMAP_DEFAULT_CENTRAL_X_INDEX_PIXEL : ℤ)) dx)
                      GRID_CELL_NEUTRAL
                  else g'.data)
                  (rowWrites
                    (g'.map_center_pixel.2 - (GMAP_DEFAULT_CENTRAL_Y_INDEX_PIXEL : ℤ)) dy)
                  GRID_CELL_NEUTRAL
              else
                (if dx ≠ 0 then
                  setCells g'.data
                    (colWrites
                      (g'.map_center_pixel.1 - (GMAP_DEFAULT_CENTRAL_X_INDEX_PIXEL : ℤ)) dx)
                    GRID_CELL_NEUTRAL
                else g'.data)) := rfl
        rw [hdata]
        split_ifs with h1 h2 h3
        · rw [setCells_apply, setCells_apply]
          split_ifs with h4 h5
          · left; rfl
          · left; rfl
          · exact ih x
        · rw [setCells_apply]
          split_ifs with h4
          · left; rfl
          · exact ih x
        · rw [setCells_apply]
          split_ifs with h4
          · left; rfl
          · exact ih x
        · exact ih x
    | clear g' _ ih =>
        intro x
        have hdata : (app_slam_private_clearVehicleRegion g').data
            = setCells g'.data (vehicleWrites g'.map_center_pixel) GRID_CELL_VISITED := rfl
        rw [hdata, setCells_apply]
        split_ifs with h1
        · right; rfl
        · exact ih x
  rcases main gm h k with h0 | h0 <;> rw [h0] <;> exact ⟨by tauto, by decide, by decide⟩

/-- Witness for `cell_value_invariant` at the reset state, cell `0`. -/
theorem cell_value_invariant_witness :
    (app_slam_private_resetGlobalMap.data 0 = GRID_CELL_NEUTRAL
      ∨ app_slam_private_resetGlobalMap.data 0 = GRID_CELL_VISITED)
    ∧ GRID_CELL_WALKABLE_THRESHOLD_MIN ≤ app_slam_private_resetGlobalMap.data 0
    ∧ app_slam_private_resetGlobalMap.data 0 ≤ GRID_CELL_WALKABLE_THRESHOLD_MAX :=
  cell_value_invariant app_slam_private_resetGlobalMap Reachable.reset 0

end AppSlam
